import Mathlib

/-!
Verification development for the TextCorrector repository.

The Python source is shallowly embedded: pure functions become Lean
functions, effectful collaborators (clipboard, AI provider, file system,
notification queue) become explicit parameters or state values, and a
Python exception becomes the `Except.error` constructor carrying the
exception's message text.
-/

namespace TextCorrector

/-! ## Python string primitives

Python `str.strip()` removes leading and trailing whitespace; for the
ASCII range this is the six characters modelled below.  `str.lower()`
maps the basic latin letters to lower case. -/

/-- Characters treated as whitespace by Python's `str.strip()` (ASCII range). -/
def pyWhitespaceChar (c : Char) : Bool :=
  c = ' ' || c = '\t' || c = '\n' || c = '\r' || c = '\x0b' || c = '\x0c'

/-- Model of Python `str.strip()` on a character list: drop whitespace from
both ends. -/
def stripChars (l : List Char) : List Char :=
  (l.dropWhile pyWhitespaceChar).rdropWhile pyWhitespaceChar

/-- Model of Python `str.strip()`. -/
def pyStrip (s : String) : String :=
  ⟨stripChars s.data⟩

/-- Model of Python `str.lower()` on one character (basic latin letters). -/
def pyLowerChar (c : Char) : Char :=
  if 65 ≤ c.toNat ∧ c.toNat ≤ 90 then Char.ofNat (c.toNat + 32) else c

/-- Model of Python `str.lower()`. -/
def pyLower (s : String) : String :=
  ⟨s.data.map pyLowerChar⟩

/-- Executable substring test: `strContainsSub hay needle` holds when
`needle` occurs contiguously inside `hay` (Python's `needle in hay`). -/
def charsContain (needle : List Char) : List Char → Bool
  | [] => needle.isEmpty
  | c :: rest => needle.isPrefixOf (c :: rest) || charsContain needle rest

/-- String-level wrapper for `charsContain`. -/
def strContainsSub (hay needle : String) : Bool :=
  charsContain needle.data hay.data

/-! ## config.py -/

/-- Instruction template `AI_PROMPTS["Portuguese"]` from `config.py`. -/
def promptPortuguese : String :=
  "TAREFA: Você é um especialista em correção ortográfica do português brasileiro. Sua única função é corrigir pontuação e acentuação.\n\nINSTRUÇÕES ESPECÍFICAS:\n1. Corrija APENAS pontuação (vírgulas, pontos, pontos de exclamação, etc.) e acentuação\n2. NÃO altere, adicione ou remova nenhuma palavra\n3. NÃO mude a ordem das palavras\n5. Mantenha a estrutura original das frases intacta\n\nFORMATO DE RESPOSTA:\n- Responda EXCLUSIVAMENTE com o texto corrigido\n- NÃO inclua aspas, prefixos, explicações ou comentários\n- NÃO adicione texto antes ou depois da correção\n- O primeiro caractere da sua resposta deve ser o primeiro caractere do texto corrigido\n\nEXEMPLO:\nEntrada: ola como voce esta hoje\nSaída: Olá, como você está hoje?\n\nTEXTO PARA CORREÇÃO:\n"

/-- Instruction template `AI_PROMPTS["English"]` from `config.py`. -/
def promptEnglish : String :=
  "TASK: You are a punctuation correction specialist for English text. Your sole function is to fix punctuation marks.\n\nSPECIFIC INSTRUCTIONS:\n1. Correct ONLY punctuation (commas, periods, question marks, etc.)\n2. DO NOT change, add, or remove any words\n3. DO NOT change the order of words\n5. Keep the original sentence structure intact\n\nRESPONSE FORMAT:\n- Respond EXCLUSIVELY with the corrected text\n- DO NOT include quotes, prefixes, explanations, or comments\n- DO NOT add any text before or after the correction\n- The first character of your response must be the first character of the corrected text\n\nEXAMPLE:\nInput: hello how are you doing today\nOutput: Hello, how are you doing today?\n\nTEXT TO CORRECT:\n"

/-- Instruction template `AI_PROMPTS["PT_to_EN"]` from `config.py`. -/
def promptPtToEn : String :=
  "TASK: You are a professional Portuguese to English translator. Your function is to provide accurate, natural translations while preserving the original meaning and tone.\n\nSPECIFIC INSTRUCTIONS:\n1. Translate the Portuguese text to natural, fluent English\n2. Maintain the original tone and style (formal, informal, technical, etc.)\n3. Preserve the meaning and context accurately\n4. Use appropriate English punctuation and grammar\n5. Keep cultural references understandable for English speakers\n6. Maintain any technical terms or proper nouns appropriately\n\nRESPONSE FORMAT:\n- Respond EXCLUSIVELY with the English translation\n- DO NOT include quotes, prefixes, explanations, or comments\n- DO NOT add any text before or after the translation\n- The first character of your response must be the first character of the translated text\n\nEXAMPLE:\nInput: Olá, como você está hoje?\nOutput: Hello, how are you today?\n\nTEXT TO TRANSLATE:\n"

/-- Lookup in the `AI_PROMPTS` dict of `config.py` (`dict.get`). -/
def aiPromptsGet (language : String) : Option String :=
  if language = "Portuguese" then some promptPortuguese
  else if language = "English" then some promptEnglish
  else if language = "PT_to_EN" then some promptPtToEn
  else none

/-- Key-membership test `language in AI_PROMPTS` on the `config.py` dict. -/
def aiPromptsMem (language : String) : Bool :=
  language = "Portuguese" || language = "English" || language = "PT_to_EN"

/-! ## domain/models.py -/

/-- Dataclass `CorrectionRequest` (`domain/models.py`).  The `__post_init__`
language check is modelled separately by `correctionRequestLanguageOk`;
`processing_time` style float fields do not appear on this model. -/
structure CorrectionRequest where
  original_text : String
  language : String
  auto_paste : Bool := true
  show_notification : Bool := true
deriving Repr, DecidableEq

/-- Language check of `CorrectionRequest.__post_init__`: the constructor
raises `ValueError` unless the language is Portuguese or English. -/
def correctionRequestLanguageOk (language : String) : Bool :=
  language = "Portuguese" || language = "English"

/-- Dataclass `CorrectionResult` (`domain/models.py`).  The wall-clock
`processing_time` float is not modelled; no claim mentions it. -/
structure CorrectionResult where
  original_text : String
  corrected_text : String
  success : Bool
  error_message : Option String := none
deriving Repr, DecidableEq

/-- Property `CorrectionResult.has_changes`: trimmed original differs from
trimmed corrected text. -/
def CorrectionResult.has_changes (r : CorrectionResult) : Bool :=
  pyStrip r.original_text != pyStrip r.corrected_text

/-- Dataclass `AppSettings` (`domain/models.py`); `__post_init__`
validation is modelled by `mkAppSettings`. -/
structure AppSettings where
  hotkey : String := "alt+s"
  auto_paste : Bool := true
  show_notifications : Bool := true
  prompt_language : String := "Portuguese"
deriving Repr, DecidableEq

/-- Constructor of `AppSettings` including its `__post_init__` validation:
a blank hotkey or an unsupported prompt language raises `ValueError`. -/
def mkAppSettings (hotkey : String) (auto_paste show_notifications : Bool)
    (prompt_language : String) : Except String AppSettings :=
  if pyStrip hotkey = "" then
    .error "hotkey must be a non-empty string"
  else if !(prompt_language = "Portuguese" || prompt_language = "English") then
    .error "prompt_language must be 'Portuguese' or 'English'"
  else
    .ok ⟨hotkey, auto_paste, show_notifications, prompt_language⟩

/-! ## domain/services.py -/

/-- The abstract generation capability (`AIProvider.generate_response`):
either returns the generated text or raises an exception carrying a
message. -/
def AIProvider := String → Except String String

/-- Method `TextCorrectionService._build_correction_prompt`: language
template (defaulting to the Portuguese one) concatenated with the text. -/
def buildCorrectionPrompt (text language : String) : String :=
  (aiPromptsGet language).getD promptPortuguese ++ text

/-- Method `TextCorrectionService.correct_text`.  The Python `try` around
the body catches any exception from the provider and converts it into a
failed result; in the embedding the provider returns `Except` and the
conversion is the `.error` branch, so `correct_text` itself is total and
never propagates a fault. -/
def correctText (provider : AIProvider) (request : CorrectionRequest) :
    CorrectionResult :=
  if pyStrip request.original_text = "" then
    { original_text := request.original_text
      corrected_text := ""
      success := false
      error_message := some "Empty text provided" }
  else
    match provider (buildCorrectionPrompt request.original_text request.language) with
    | .error e =>
      { original_text := request.original_text
        corrected_text := ""
        success := false
        error_message := some ("Text correction failed: " ++ e) }
    | .ok corrected =>
      if pyStrip corrected = "" then
        { original_text := request.original_text
          corrected_text := ""
          success := false
          error_message := some "AI returned empty response" }
      else
        { original_text := request.original_text
          corrected_text := pyStrip corrected
          success := true
          error_message := none }

/-- Method `TextCorrectionService.validate_request`: returns
`(is_valid, error_message)` without raising. -/
def validateRequest (request : CorrectionRequest) : Bool × String :=
  if request.original_text = "" then
    (false, "Text cannot be empty")
  else if (pyStrip request.original_text).length = 0 then
    (false, "Text cannot be only whitespace")
  else if request.original_text.length > 10000 then
    (false, "Text is too long (max 10,000 characters)")
  else if !aiPromptsMem request.language then
    (false, "Unsupported language: " ++ request.language)
  else
    (true, "")

/-! ## application/use_cases.py

`TextCorrectionUseCase.execute` performs effects through its collaborator
services; a run is embedded as the list of observable collaborator calls,
in program order.  The clipboard read is a parameter (the text the
selected backend returned), and the generation capability is the
`AIProvider` parameter. -/

/-- Observable collaborator call of one `execute` run. -/
inductive WorkflowEvent where
  | getTextEv (result : String)
  | warnNotify (message : String)
  | infoNotify (message : String)
  | errorNotify (message : String)
  | setTextEv (content : String)
  | sleepEv
  | pasteEv
  | successNotify (message : String)
deriving Repr, DecidableEq

/-- Recognizer for the `paste()` event. -/
def isPasteEv : WorkflowEvent → Bool
  | .pasteEv => true
  | _ => false

/-- Method `TextCorrectionUseCase._create_text_preview` (default
`max_length = 80`; Python `text[:max_length - 3]` is `String.take 77`). -/
def createTextPreview (text : String) : String :=
  if text.length ≤ 80 then text
  else text.take 77 ++ "..."

/-- Message built by `TextCorrectionUseCase._show_success_notification`. -/
def successNotificationMessage (result : CorrectionResult)
    (auto_paste_enabled : Bool) : String :=
  let preview := createTextPreview result.corrected_text
  let action := if auto_paste_enabled then "pasted" else "copied to clipboard"
  if result.has_changes then
    "Text corrected and " ++ action ++ "!\n\nPreview: " ++ preview
  else
    "No changes needed. Text " ++ action ++ ".\n\nPreview: " ++ preview

/-- The `CorrectionRequest` built in step 3 of `execute`. -/
def requestOf (settings : AppSettings) (clipboard_text : String) :
    CorrectionRequest :=
  { original_text := clipboard_text
    language := settings.prompt_language
    auto_paste := settings.auto_paste
    show_notification := settings.show_notifications }

/-- Method `TextCorrectionUseCase.execute` (`application/use_cases.py`),
as the list of collaborator calls of one run.  The `CorrectionRequest`
constructor raises `ValueError` for an unsupported language; `execute`'s
outer `except` turns any such fault into a single error notification. -/
def executeUseCase (provider : AIProvider) (settings : AppSettings)
    (clipboard_text : String) : List WorkflowEvent :=
  WorkflowEvent.getTextEv clipboard_text ::
  (if pyStrip clipboard_text = "" then
    if settings.show_notifications then
      [.warnNotify "Clipboard is empty. Copy some text first!"]
    else []
  else
    (if settings.show_notifications then
      [WorkflowEvent.infoNotify "Processing text correction..."]
    else []) ++
    (if !correctionRequestLanguageOk settings.prompt_language then
      if settings.show_notifications then
        [.errorNotify ("Unexpected error: " ++ "language must be 'Portuguese' or 'English'")]
      else []
    else
      let request := requestOf settings clipboard_text
      if !(validateRequest request).1 then
        if settings.show_notifications then
          [.errorNotify ("Validation error: " ++ (validateRequest request).2)]
        else []
      else
        let result := correctText provider request
        if !result.success then
          if settings.show_notifications then
            [.errorNotify ("Correction failed: " ++ result.error_message.getD "None")]
          else []
        else
          WorkflowEvent.setTextEv result.corrected_text ::
          ((if settings.auto_paste then [WorkflowEvent.sleepEv, WorkflowEvent.pasteEv] else []) ++
           (if settings.show_notifications then
             [WorkflowEvent.successNotify (successNotificationMessage result settings.auto_paste)]
           else []))))

/-- Clipboard content after a run: the argument of the last `set_text`
call, or the initial content when no `set_text` happened. -/
def finalClipboard (initial : String) (events : List WorkflowEvent) : String :=
  events.foldl (fun current e =>
    match e with
    | .setTextEv s => s
    | _ => current) initial

/-! ## infrastructure/repositories.py -/

/-- A settings dict as parsed from JSON: each known key present or
absent (`dict.get` with a default covers the absent case; unknown keys
are ignored by `AppSettings.from_dict`). -/
structure SettingsData where
  hotkey : Option String := none
  auto_paste : Option Bool := none
  show_notifications : Option Bool := none
  prompt_language : Option String := none
deriving Repr, DecidableEq

/-- The `DEFAULT_SETTINGS` dict of `config.py`. -/
def defaultSettingsDict : SettingsData :=
  { hotkey := some "alt+s"
    auto_paste := some true
    show_notifications := some true
    prompt_language := some "PT_to_EN" }

/-- Classmethod `AppSettings.from_dict` (including the `__post_init__`
validation the constructor runs, which may raise `ValueError`). -/
def appSettingsFromDict (data : SettingsData) : Except String AppSettings :=
  mkAppSettings (data.hotkey.getD "alt+s") (data.auto_paste.getD true)
    (data.show_notifications.getD true) (data.prompt_language.getD "Portuguese")

/-- Python `{**DEFAULT_SETTINGS, **data}`: keys of `data` override the
defaults. -/
def mergeDicts (base over : SettingsData) : SettingsData :=
  { hotkey := over.hotkey <|> base.hotkey
    auto_paste := over.auto_paste <|> base.auto_paste
    show_notifications := over.show_notifications <|> base.show_notifications
    prompt_language := over.prompt_language <|> base.prompt_language }

/-- State of the settings file as `load` finds it. -/
inductive SettingsFile where
  | missing
  | malformed
  | parsed (data : SettingsData)
deriving Repr, DecidableEq

/-- Method `SettingsRepository.load`.  First component: the returned
settings, or `Except.error` for an exception escaping `load`; second
component: whether a copy of the bad file was preserved under the
diagnostic `.corrupted` name.  Control flow mirrors the source: the
file-present and file-missing paths run inside `try`, a `ValueError`
from `AppSettings` is caught by the generic `except Exception` handler,
and an exception raised inside either `except` handler escapes `load`. -/
def settingsLoad (file : SettingsFile) : Except String AppSettings × Bool :=
  match file with
  | .parsed data =>
    (match appSettingsFromDict (mergeDicts defaultSettingsDict data) with
     | .ok s => Except.ok s
     | .error _ => appSettingsFromDict defaultSettingsDict, false)
  | .missing =>
    (match appSettingsFromDict defaultSettingsDict with
     | .ok s => Except.ok s
     | .error _ => appSettingsFromDict defaultSettingsDict, false)
  | .malformed =>
    (appSettingsFromDict defaultSettingsDict, true)

/-- Canonical settings file plus the `.tmp` sibling used by `save`. -/
structure FileState where
  canonical : Option String := none
  temp : Option String := none
deriving Repr, DecidableEq

/-- Serialization `json.dump(settings.to_dict(), f, indent=4,
ensure_ascii=False)` for settings values without JSON-escaped
characters. -/
def settingsJson (s : AppSettings) : String :=
  "\x7b\n    \"hotkey\": \"" ++ s.hotkey ++ "\",\n    \"auto_paste\": " ++
    (if s.auto_paste then "true" else "false") ++
    ",\n    \"show_notifications\": " ++
    (if s.show_notifications then "true" else "false") ++
    ",\n    \"prompt_language\": \"" ++ s.prompt_language ++ "\"\n\x7d"

/-- Where a `save` run fails, carrying the exception's message. -/
inductive SaveFailure where
  | succeeds
  | atTempWrite (message : String)
  | atReplace (message : String)
deriving Repr, DecidableEq

/-- Method `SettingsRepository.save`: write the serialization to the
`.tmp` path, then `Path.replace` it onto the canonical path (atomic).
On an exception at either step the handler unlinks the `.tmp` artifact
and re-raises `Exception("Failed to save settings: ...")`. -/
def settingsSave (fs : FileState) (s : AppSettings) (failure : SaveFailure) :
    FileState × Except String Unit :=
  match failure with
  | .succeeds =>
    ({ canonical := some (settingsJson s), temp := none }, Except.ok ())
  | .atTempWrite m =>
    ({ fs with temp := none }, Except.error ("Failed to save settings: " ++ m))
  | .atReplace m =>
    ({ fs with temp := none }, Except.error ("Failed to save settings: " ++ m))

/-! ## infrastructure/services.py — ClipboardService -/

/-- Outcome of one backend init probe (`_init_pyclip` etc.): the probe
function returned a Bool, or raised. -/
inductive ProbeOutcome where
  | done (success : Bool)
  | raises (message : String)
deriving Repr, DecidableEq

/-- Whether the `try` around a probe call commits to the backend: a
raising probe is caught and skipped. -/
def probeSucceeds : ProbeOutcome → Bool
  | .done b => b
  | .raises _ => false

/-- The four probe outcomes, in the priority order of
`_initialize_clipboard_backend`. -/
structure BackendProbes where
  pyclip : ProbeOutcome
  xclip : ProbeOutcome
  xsel : ProbeOutcome
  pyperclip : ProbeOutcome
deriving Repr, DecidableEq

/-- Method `ClipboardService._initialize_clipboard_backend`: first
passing probe wins; when every candidate fails or raises, the selected
backend is the sentinel string `"none"`. -/
def initializeClipboardBackend (p : BackendProbes) : String :=
  if probeSucceeds p.pyclip then "pyclip"
  else if probeSucceeds p.xclip then "xclip"
  else if probeSucceeds p.xsel then "xsel"
  else if probeSucceeds p.pyperclip then "pyperclip"
  else "none"

/-- Outcome of the backend-specific raw operation: returned a value, or
raised. -/
inductive RawOp (α : Type) where
  | value (v : α)
  | raises (message : String)
deriving Repr, DecidableEq

/-- Method `ClipboardService.get_text`: dispatch on the selected backend;
any runtime failure is caught and becomes `""`; the `"none"` sentinel
returns `""` without touching any backend. -/
def clipboardGetText (backend : String) (raw : RawOp String) : String :=
  if backend = "pyclip" || backend = "xclip" || backend = "xsel" ||
      backend = "pyperclip" then
    match raw with
    | .value v => v
    | .raises _ => ""
  else ""

/-- Method `ClipboardService.set_text`: dispatch on the selected backend;
any runtime failure is caught and becomes `false`; the `"none"` sentinel
returns `false`. -/
def clipboardSetText (backend : String) (text : String) (raw : RawOp Bool) :
    Bool :=
  if backend = "pyclip" || backend = "xclip" || backend = "xsel" ||
      backend = "pyperclip" then
    match raw with
    | .value b => b
    | .raises _ => false
  else false

/-! ## presentation/system_integration.py — HotkeyListener -/

/-- Python `str.split('+')` on a character list (a trailing or repeated
separator yields empty tokens, and the empty string yields one empty
token, exactly as in Python). -/
def splitPlus : List Char → List (List Char)
  | [] => [[]]
  | c :: rest =>
    if c = '+' then [] :: splitPlus rest
    else
      match splitPlus rest with
      | [] => [[c]]
      | t :: ts => (c :: t) :: ts

/-- Python `'+'.join(tokens)` on character lists. -/
def joinPlus : List (List Char) → List Char
  | [] => []
  | [t] => t
  | t :: rest => t ++ '+' :: joinPlus rest

/-- Per-token step of `HotkeyListener._normalize_hotkey`: strip the
token, then wrap multi-character (modifier) tokens in angle brackets. -/
def normalizeTokenChars (k : List Char) : List Char :=
  let k := stripChars k
  if k.length > 1 then '<' :: (k ++ ['>']) else k

/-- Method `HotkeyListener._normalize_hotkey` on a character list:
`hotkey.lower().strip().split('+')`, per-token normalization,
`'+'.join`. -/
def normalizeHotkeyChars (l : List Char) : List Char :=
  joinPlus ((splitPlus (stripChars (l.map pyLowerChar))).map normalizeTokenChars)

/-- Method `HotkeyListener._normalize_hotkey`. -/
def normalizeHotkey (hotkey : String) : String :=
  ⟨normalizeHotkeyChars hotkey.data⟩

/-! ## presentation/ui_components.py — NotificationService queue -/

/-- One tuple `("notification", title, message, color, duration)` put on
the UI queue by `_queue_notification`. -/
structure QueueItem where
  tag : String := "notification"
  title : String
  message : String
  color : String
  duration : Nat
deriving Repr, DecidableEq

/-- The thread-safe FIFO `queue.Queue` of `NotificationService`, as the
list of queued items, oldest first. -/
structure UiQueue where
  items : List QueueItem := []
deriving Repr, DecidableEq

/-- Method `NotificationService._queue_notification` seen at the queue:
an atomic `put` appends the item. -/
def queuePut (q : UiQueue) (item : QueueItem) : UiQueue :=
  ⟨q.items ++ [item]⟩

/-- Method `NotificationService.process_queue`: `get_nowait` in a loop
until `queue.Empty`, so one call drains every queued item in FIFO order
and leaves the queue empty. -/
def processQueueDrain (q : UiQueue) : List QueueItem × UiQueue :=
  (q.items, ⟨[]⟩)

/-- Interleaving semantics for M concurrent producers: each `put` is
atomic, so the order in which the N items reach the queue is some merge
of the producers' sequences that preserves every producer's own order.
`Merges producers merged` holds when `merged` is such a merge. -/
inductive Merges {α : Type} : List (List α) → List α → Prop where
  | nil : ∀ producers, (∀ l ∈ producers, l = []) → Merges producers []
  | step : ∀ (pre : List (List α)) (x : α) (rest : List α)
      (post : List (List α)) (merged : List α),
      Merges (pre ++ rest :: post) merged →
      Merges (pre ++ (x :: rest) :: post) (x :: merged)

/-! ## Helper lemmas -/

/-- A list whose front-drop is already fixed stays fixed on any of its
prefixes. -/
theorem dropWhile_of_sublist_fixed {α : Type} {p : α → Bool} {d s : List α}
    (hd : d.dropWhile p = d) (hpre : s <+: d) : s.dropWhile p = s := by
  cases s with
  | nil => rfl
  | cons c s' =>
    obtain ⟨t, ht⟩ := hpre
    have hc : p c = false := by
      by_contra hne
      rw [Bool.not_eq_false] at hne
      rw [← ht, List.cons_append, List.dropWhile_cons, if_pos hne] at hd
      have hlen := (List.dropWhile_sublist (l := s' ++ t) p).length_le
      rw [hd] at hlen
      simp at hlen
    rw [List.dropWhile_cons, if_neg (by simp [hc])]

/-- Python `strip` is idempotent. -/
theorem stripChars_idem (l : List Char) :
    stripChars (stripChars l) = stripChars l := by
  have h1 : (stripChars l).dropWhile pyWhitespaceChar = stripChars l :=
    dropWhile_of_sublist_fixed (List.dropWhile_idempotent pyWhitespaceChar l)
      (List.rdropWhile_prefix pyWhitespaceChar (l.dropWhile pyWhitespaceChar))
  show ((stripChars l).dropWhile pyWhitespaceChar).rdropWhile pyWhitespaceChar
      = stripChars l
  rw [h1]
  exact List.rdropWhile_idempotent pyWhitespaceChar (l.dropWhile pyWhitespaceChar)

/-- String form of `stripChars_idem`. -/
theorem pyStrip_idem (s : String) : pyStrip (pyStrip s) = pyStrip s :=
  congrArg String.mk (stripChars_idem s.data)

/-- Dropping from the front does nothing when no element satisfies the
predicate. -/
theorem dropWhile_eq_self_of_all {α : Type} {p : α → Bool} {l : List α}
    (h : ∀ c ∈ l, p c = false) : l.dropWhile p = l := by
  cases l with
  | nil => rfl
  | cons c rest =>
    rw [List.dropWhile_cons, if_neg (by simp [h c (List.mem_cons_self c rest)])]

/-- Dropping from the back does nothing when no element satisfies the
predicate. -/
theorem rdropWhile_eq_self_of_all {α : Type} {p : α → Bool} {l : List α}
    (h : ∀ c ∈ l, p c = false) : l.rdropWhile p = l := by
  rw [List.rdropWhile_eq_self_iff]
  intro hl hp
  rw [h _ (List.getLast_mem hl)] at hp
  cases hp

/-- A list with no whitespace characters strips to itself. -/
theorem stripChars_eq_self_of_all {l : List Char}
    (h : ∀ c ∈ l, pyWhitespaceChar c = false) : stripChars l = l := by
  unfold stripChars
  rw [dropWhile_eq_self_of_all h, rdropWhile_eq_self_of_all h]

/-- A contiguous occurrence check succeeds on the needle appended on the
right. -/
theorem charsContain_append_right (a b : List Char) :
    charsContain b (a ++ b) = true := by
  induction a with
  | nil =>
    cases b with
    | nil => rfl
    | cons c cs => simp [charsContain]
  | cons c a ih =>
    cases hab : a ++ b with
    | nil => simp_all [charsContain, List.isEmpty_iff]
    | cons d ds => simp [charsContain, ← hab, ih]

/-- Appending on the right of a non-empty string keeps it non-empty. -/
theorem append_ne_empty_left (a b : String) (h : a ≠ "") : a ++ b ≠ "" := by
  obtain ⟨la⟩ := a
  obtain ⟨lb⟩ := b
  intro hc
  apply h
  have hd : la ++ lb = ([] : List Char) := congrArg String.data hc
  rcases List.append_eq_nil.mp hd with ⟨h3, _⟩
  rw [h3]

/-- String form of `charsContain_append_right`. -/
theorem strContainsSub_append_right (a b : String) :
    strContainsSub (a ++ b) b = true := by
  show charsContain b.data (a ++ b).data = true
  rw [String.data_append]
  exact charsContain_append_right a.data b.data

/-! ## Claims about the Correction Service -/

/-- C10: every `CorrectionResult` that `TextCorrectionService.correct_text`
returns keeps the request's `original_text`; a successful result carries a
non-empty, already-trimmed `corrected_text` and no `error_message`; a
failed result carries an empty `corrected_text` and a non-empty
`error_message`. -/
theorem correct_text_result_invariant (provider : AIProvider)
    (request : CorrectionRequest) :
    (correctText provider request).original_text = request.original_text
    ∧ ((correctText provider request).success = true →
        (correctText provider request).corrected_text ≠ ""
        ∧ pyStrip (correctText provider request).corrected_text
            = (correctText provider request).corrected_text
        ∧ (correctText provider request).error_message = none)
    ∧ ((correctText provider request).success = false →
        (correctText provider request).corrected_text = ""
        ∧ ∃ m, (correctText provider request).error_message = some m ∧ m ≠ "") := by
  unfold correctText
  by_cases h1 : pyStrip request.original_text = ""
  · simp [h1]
  · rw [if_neg h1]
    cases hp : provider (buildCorrectionPrompt request.original_text request.language) with
    | error e =>
      simp
      exact append_ne_empty_left _ e (by decide)
    | ok corrected =>
      by_cases h2 : pyStrip corrected = ""
      · simp [h2]
      · simp [h2, pyStrip_idem]

/-- C10 witness: the invariant instantiated with an echoing provider on a
concrete request. -/
theorem correct_text_result_invariant_witness :
    (correctText (fun _ => .ok " fixed text ")
      ⟨"hello", "English", true, true⟩).original_text = "hello"
    ∧ (correctText (fun _ => .ok " fixed text ")
        ⟨"hello", "English", true, true⟩).corrected_text ≠ ""
    ∧ pyStrip (correctText (fun _ => .ok " fixed text ")
        ⟨"hello", "English", true, true⟩).corrected_text
      = (correctText (fun _ => .ok " fixed text ")
        ⟨"hello", "English", true, true⟩).corrected_text
    ∧ (correctText (fun _ => .ok " fixed text ")
        ⟨"hello", "English", true, true⟩).error_message = none := by
  have h := correct_text_result_invariant (fun _ => .ok " fixed text ")
    ⟨"hello", "English", true, true⟩
  have h2 := h.2.1 (by decide)
  exact ⟨h.1, h2.1, h2.2.1, h2.2.2⟩

/-- C2 counterexample: with a blank request the provider is never invoked,
so the failed result's message is the fixed string for empty input, which
does not contain the exception's message (here "boom"). -/
theorem correct_text_exception_counterexample :
    (correctText (fun _ => .error "boom") ⟨"", "Portuguese", true, true⟩).success
        = false
    ∧ (correctText (fun _ => .error "boom")
        ⟨"", "Portuguese", true, true⟩).error_message
          = some "Empty text provided"
    ∧ strContainsSub "Empty text provided" "boom" = false := by decide

/-- C2 (amended): for every request and a generation capability that
raises, `correct_text` returns a total (never-propagating) failed result
with a non-empty error message, and whenever the request's text is not
blank — so the capability is actually invoked — the message contains the
exception's message. -/
theorem correct_text_exception_swallowed (request : CorrectionRequest)
    (e : String) :
    (correctText (fun _ => .error e) request).success = false
    ∧ (∃ m, (correctText (fun _ => .error e) request).error_message = some m
        ∧ m ≠ "")
    ∧ (pyStrip request.original_text ≠ "" →
        (correctText (fun _ => .error e) request).error_message
            = some ("Text correction failed: " ++ e)
        ∧ strContainsSub ("Text correction failed: " ++ e) e = true) := by
  unfold correctText
  by_cases h1 : pyStrip request.original_text = ""
  · simp [h1]
  · simp [h1, strContainsSub_append_right]
    exact append_ne_empty_left _ e (by decide)

/-- C2 witness: the amended statement instantiated at a non-blank request
and the exception message "boom". -/
theorem correct_text_exception_swallowed_witness :
    (correctText (fun _ => .error "boom")
        ⟨"hello", "English", true, true⟩).success = false
    ∧ (correctText (fun _ => .error "boom")
        ⟨"hello", "English", true, true⟩).error_message
          = some "Text correction failed: boom"
    ∧ strContainsSub "Text correction failed: boom" "boom" = true := by
  have h := correct_text_exception_swallowed ⟨"hello", "English", true, true⟩
    "boom"
  have h3 := h.2.2 (by decide)
  exact ⟨h.1, h3.1, h3.2⟩

/-- C3 (code bug): `SettingsRepository.load` raises a `ValueError` out of
its boundary both when the settings file is missing and when it is
malformed, because `DEFAULT_SETTINGS["prompt_language"]` is "PT_to_EN",
which `AppSettings.__post_init__` rejects; the claim (and the method's
own docstring) say defaults are returned and nothing is raised.  The
malformed path does preserve the bad file under the diagnostic name
before the second `ValueError` escapes. -/
theorem settings_load_default_language_raises :
    defaultSettingsDict.prompt_language = some "PT_to_EN"
    ∧ settingsLoad .missing
        = (.error "prompt_language must be 'Portuguese' or 'English'", false)
    ∧ settingsLoad .malformed
        = (.error "prompt_language must be 'Portuguese' or 'English'", true) := by
  refine ⟨rfl, ?_, ?_⟩ <;> rfl

set_option maxRecDepth 80000 in
/-- C4 counterexample: a generation capability that returns its prompt
argument unchanged echoes the instruction template too, so the corrected
text differs from "hello world" and `has_changes` is true, contradicting
the claimed `has_changes = false`. -/
theorem echo_prompt_has_changes_counterexample :
    (correctText (fun prompt => .ok prompt)
      ⟨"hello world", "English", true, true⟩).has_changes = true := by decide

set_option maxRecDepth 80000 in
/-- C4 (amended): a capability that returns exactly the request's
original text yields `has_changes = false` on "hello world", while a
capability that returns its whole prompt argument unchanged yields
`has_changes = true`, because `_build_correction_prompt` prepends the
language instruction template to the text. -/
theorem echo_original_text_no_changes :
    (correctText (fun _ => .ok "hello world")
      ⟨"hello world", "English", true, true⟩).has_changes = false
    ∧ (correctText (fun prompt => .ok prompt)
      ⟨"hello world", "English", true, true⟩).has_changes = true
    ∧ (correctText (fun prompt => .ok prompt)
      ⟨"hello world", "Portuguese", true, true⟩).has_changes = true := by
  refine ⟨by decide, by decide, by decide⟩

/-- A string of length zero is the empty string. -/
theorem string_length_zero {s : String} (h : s.length = 0) : s = "" := by
  obtain ⟨l⟩ := s
  have h2 : l = [] := List.length_eq_zero.mp h
  subst h2
  rfl

/-- A string starting with the unsupported-language label differs from any
string whose first 22 characters are not that label. -/
theorem unsupported_reason_ne (language t : String)
    (h : t.data.take 22 ≠ "Unsupported language: ".data) :
    "Unsupported language: " ++ language ≠ t := by
  intro he
  apply h
  rw [← he, String.data_append]
  exact List.take_left' (by decide)

/-- C6: `validate_request` returns `(false, reason)` — rather than
raising — with a distinct, non-empty reason for each rejection case:
empty text, whitespace-only text, text over 10,000 characters, and a
language outside the supported set. -/
theorem validate_request_distinct_reasons (request : CorrectionRequest) :
    (request.original_text = "" →
      validateRequest request = (false, "Text cannot be empty"))
    ∧ (request.original_text ≠ "" → pyStrip request.original_text = "" →
      validateRequest request = (false, "Text cannot be only whitespace"))
    ∧ (pyStrip request.original_text ≠ "" →
        request.original_text.length > 10000 →
      validateRequest request
        = (false, "Text is too long (max 10,000 characters)"))
    ∧ (pyStrip request.original_text ≠ "" →
        request.original_text.length ≤ 10000 →
        aiPromptsMem request.language = false →
      validateRequest request
        = (false, "Unsupported language: " ++ request.language))
    ∧ ("Text cannot be empty" ≠ ""
        ∧ "Text cannot be only whitespace" ≠ ""
        ∧ "Text is too long (max 10,000 characters)" ≠ ""
        ∧ "Unsupported language: " ++ request.language ≠ "")
    ∧ ("Text cannot be empty" ≠ "Text cannot be only whitespace"
        ∧ "Text cannot be empty" ≠ "Text is too long (max 10,000 characters)"
        ∧ "Text cannot be only whitespace"
            ≠ "Text is too long (max 10,000 characters)"
        ∧ "Unsupported language: " ++ request.language ≠ "Text cannot be empty"
        ∧ "Unsupported language: " ++ request.language
            ≠ "Text cannot be only whitespace"
        ∧ "Unsupported language: " ++ request.language
            ≠ "Text is too long (max 10,000 characters)") := by
  have hws_ne : pyStrip request.original_text ≠ "" → request.original_text ≠ "" := by
    intro hws h0
    apply hws
    rw [h0]
    rfl
  refine ⟨?_, ?_, ?_, ?_,
    ⟨by decide, by decide, by decide, append_ne_empty_left _ _ (by decide)⟩,
    ⟨by decide, by decide, by decide, unsupported_reason_ne _ _ (by decide),
      unsupported_reason_ne _ _ (by decide), unsupported_reason_ne _ _ (by decide)⟩⟩
  · intro h0
    simp [validateRequest, h0]
  · intro hne hws
    simp [validateRequest, hne, hws]
  · intro hws hlong
    have hne := hws_ne hws
    have hlen2 : ¬((pyStrip request.original_text).length = 0) := by
      intro h0
      exact hws (string_length_zero h0)
    unfold validateRequest
    rw [if_neg hne, if_neg hlen2, if_pos hlong]
  · intro hws hshort hlang
    have hne := hws_ne hws
    have hlen2 : ¬((pyStrip request.original_text).length = 0) := by
      intro h0
      exact hws (string_length_zero h0)
    unfold validateRequest
    rw [if_neg hne, if_neg hlen2, if_neg (by omega),
      if_pos (by simp [hlang])]

/-- Unfolding `pyStrip` on an explicit character list. -/
theorem pyStrip_mk (l : List Char) : pyStrip ⟨l⟩ = ⟨stripChars l⟩ := rfl

/-- Unfolding `String.length` on an explicit character list. -/
theorem string_length_mk (l : List Char) : (⟨l⟩ : String).length = l.length := rfl

/-- C6 witness: each rejection case at a concrete request, the long-text
case using a 10,001-character string. -/
theorem validate_request_distinct_reasons_witness :
    validateRequest ⟨"", "Portuguese", true, true⟩
      = (false, "Text cannot be empty")
    ∧ validateRequest ⟨"  \t ", "Portuguese", true, true⟩
      = (false, "Text cannot be only whitespace")
    ∧ validateRequest ⟨⟨List.replicate 10001 'a'⟩, "Portuguese", true, true⟩
      = (false, "Text is too long (max 10,000 characters)")
    ∧ validateRequest ⟨"hello", "French", true, true⟩
      = (false, "Unsupported language: French")
    ∧ "Unsupported language: French" ≠ "Text cannot be empty" := by
  have h1 := (validate_request_distinct_reasons
    ⟨"", "Portuguese", true, true⟩).1 rfl
  have h2 := ((validate_request_distinct_reasons
    ⟨"  \t ", "Portuguese", true, true⟩).2.1 (by decide)) (by decide)
  have hall : ∀ c ∈ List.replicate 10001 'a', pyWhitespaceChar c = false := by
    intro c hc
    rw [List.eq_of_mem_replicate hc]
    rfl
  have hws : pyStrip ⟨List.replicate 10001 'a'⟩ ≠ "" := by
    rw [pyStrip_mk, stripChars_eq_self_of_all hall]
    intro hc
    have hd : List.replicate 10001 'a' = ([] : List Char) :=
      congrArg String.data hc
    have hlen := congrArg List.length hd
    rw [List.length_replicate, List.length_nil] at hlen
    omega
  have hlong : (⟨List.replicate 10001 'a'⟩ : String).length > 10000 := by
    rw [string_length_mk, List.length_replicate]
    omega
  have h3 := ((validate_request_distinct_reasons
    ⟨⟨List.replicate 10001 'a'⟩, "Portuguese", true, true⟩).2.2.1 hws) hlong
  have h4 := (((validate_request_distinct_reasons
    ⟨"hello", "French", true, true⟩).2.2.2.1 (by decide)) (by decide)) (by decide)
  have h5 := (validate_request_distinct_reasons
    ⟨"hello", "French", true, true⟩).2.2.2.2.2.2.2.2.1
  exact ⟨h1, h2, h3, h4, h5⟩

/-- C7: when every clipboard backend probe fails or raises, the selector
commits to the sentinel "none" without letting any exception escape, and
afterwards `get_text` returns the empty string and `set_text` returns
false for every argument and every raw-operation outcome. -/
theorem clipboard_all_backends_fail (p : BackendProbes)
    (h1 : probeSucceeds p.pyclip = false)
    (h2 : probeSucceeds p.xclip = false)
    (h3 : probeSucceeds p.xsel = false)
    (h4 : probeSucceeds p.pyperclip = false) :
    initializeClipboardBackend p = "none"
    ∧ (∀ raw, clipboardGetText (initializeClipboardBackend p) raw = "")
    ∧ (∀ text raw,
        clipboardSetText (initializeClipboardBackend p) text raw = false) := by
  have hb : initializeClipboardBackend p = "none" := by
    unfold initializeClipboardBackend
    rw [h1, h2, h3, h4]
    rfl
  refine ⟨hb, ?_, ?_⟩
  · intro raw
    rw [hb]
    rfl
  · intro text raw
    rw [hb]
    rfl

/-- C7 witness: a probe vector where two candidates raise and two return
false, with concrete raw outcomes (including a backend call that would
have returned a value). -/
theorem clipboard_all_backends_fail_witness :
    initializeClipboardBackend
      ⟨.raises "pyclip missing", .done false, .raises "xsel missing", .done false⟩
      = "none"
    ∧ clipboardGetText
        (initializeClipboardBackend
          ⟨.raises "pyclip missing", .done false, .raises "xsel missing", .done false⟩)
        (.value "stale") = ""
    ∧ clipboardSetText
        (initializeClipboardBackend
          ⟨.raises "pyclip missing", .done false, .raises "xsel missing", .done false⟩)
        "hello" (.value true) = false := by
  have h := clipboard_all_backends_fail
    ⟨.raises "pyclip missing", .done false, .raises "xsel missing", .done false⟩
    (by decide) (by decide) (by decide) (by decide)
  exact ⟨h.1, h.2.1 _, h.2.2 _ _⟩

/-- C8: `SettingsRepository.save` writes the serialization to the `.tmp`
path and atomically replaces the canonical file on success; on a failure
at either step the canonical file is unchanged, the `.tmp` artifact is
removed, and an exception surfaces to the caller. -/
theorem settings_save_atomic (fs : FileState) (s : AppSettings)
    (failure : SaveFailure) :
    (failure = .succeeds →
      settingsSave fs s failure
        = ({ canonical := some (settingsJson s), temp := none }, Except.ok ()))
    ∧ (failure ≠ .succeeds →
      (settingsSave fs s failure).1.canonical = fs.canonical
      ∧ (settingsSave fs s failure).1.temp = none
      ∧ ∃ e, (settingsSave fs s failure).2 = Except.error e) := by
  cases failure with
  | succeeds => exact ⟨fun _ => rfl, fun h => absurd rfl h⟩
  | atTempWrite m =>
    exact ⟨(fun h => nomatch h), fun _ => ⟨rfl, rfl, ⟨_, rfl⟩⟩⟩
  | atReplace m =>
    exact ⟨(fun h => nomatch h), fun _ => ⟨rfl, rfl, ⟨_, rfl⟩⟩⟩

/-- C8 witness: a failing replace step leaves the canonical content in
place, removes the temp artifact and raises; and the success case
replaces the canonical content. -/
theorem settings_save_atomic_witness :
    (settingsSave ⟨some "old content", some "stale tmp"⟩ {} (.atReplace "disk full")).1.canonical
      = some "old content"
    ∧ (settingsSave ⟨some "old content", some "stale tmp"⟩ {} (.atReplace "disk full")).1.temp
      = none
    ∧ (∃ e, (settingsSave ⟨some "old content", some "stale tmp"⟩ {} (.atReplace "disk full")).2
      = Except.error e)
    ∧ settingsSave ⟨some "old content", some "stale tmp"⟩ {} .succeeds
      = ({ canonical := some (settingsJson {}), temp := none }, Except.ok ()) := by
  have h := settings_save_atomic ⟨some "old content", some "stale tmp"⟩ {}
    (.atReplace "disk full")
  have hf := h.2 (by intro hc; cases hc)
  have hs := (settings_save_atomic ⟨some "old content", some "stale tmp"⟩ {}
    .succeeds).1 rfl
  exact ⟨hf.1, hf.2.1, hf.2.2, hs⟩

/-- Folding `queuePut` over the arrival order yields exactly those items,
oldest first. -/
theorem foldl_queuePut_items (init : List QueueItem) (xs : List QueueItem) :
    (xs.foldl queuePut ⟨init⟩).items = init ++ xs := by
  induction xs generalizing init with
  | nil => simp
  | cons x xs ih =>
    show (xs.foldl queuePut ⟨init ++ [x]⟩).items = init ++ x :: xs
    rw [ih]
    simp

/-- Any merge of the producers' sequences is a permutation of their
concatenation: no item is lost or duplicated. -/
theorem merges_perm {α : Type} {producers : List (List α)} {merged : List α}
    (h : Merges producers merged) : merged.Perm producers.flatten := by
  induction h with
  | nil producers hnil =>
    rw [List.flatten_eq_nil_iff.mpr hnil]
  | step pre x rest post merged hm ih =>
    have h1 : merged.Perm (pre.flatten ++ (rest ++ post.flatten)) := by
      rwa [List.flatten_append, List.flatten_cons] at ih
    rw [List.flatten_append, List.flatten_cons, List.cons_append]
    exact (h1.cons x).trans List.perm_middle.symm

/-- Any merge of the producers' sequences keeps every producer's own
order: each producer's list is a subsequence of the merge. -/
theorem merges_sublist {α : Type} {producers : List (List α)} {merged : List α}
    (h : Merges producers merged) : ∀ l ∈ producers, l.Sublist merged := by
  induction h with
  | nil producers hnil =>
    intro l hl
    rw [hnil l hl]
  | step pre x rest post merged hm ih =>
    intro l hl
    rcases List.mem_append.mp hl with hpre | hpost
    · exact (ih l (List.mem_append_left _ hpre)).cons x
    · rcases List.mem_cons.mp hpost with heq | hpost2
      · rw [heq]
        exact (ih rest (List.mem_append_right _ (List.mem_cons_self _ _))).cons₂ x
      · exact (ih l (List.mem_append_right _ (List.mem_cons_of_mem _ hpost2))).cons x

/-- C9: whatever order the concurrent producers' atomic puts interleave
in, one `process_queue` drain returns exactly the N enqueued items (none
lost, none duplicated), leaves the queue empty, and preserves each
producer's own FIFO order as a subsequence of the drained list. -/
theorem notification_queue_fifo (producers : List (List QueueItem))
    (merged : List QueueItem) (h : Merges producers merged) :
    (processQueueDrain (merged.foldl queuePut ⟨[]⟩)).1 = merged
    ∧ (processQueueDrain (merged.foldl queuePut ⟨[]⟩)).2 = ⟨[]⟩
    ∧ merged.length = (producers.map List.length).sum
    ∧ merged.Perm producers.flatten
    ∧ ∀ l ∈ producers, l.Sublist merged := by
  have hperm := merges_perm h
  refine ⟨?_, rfl, ?_, hperm, merges_sublist h⟩
  · show (merged.foldl queuePut ⟨[]⟩).items = merged
    rw [foldl_queuePut_items]
    exact List.nil_append merged
  · rw [hperm.length_eq, List.length_flatten]

/-- Sample notification items for the C9 witness. -/
def sampleInfoItem : QueueItem := ⟨"notification", "Info", "one", "#0078d4", 4000⟩

/-- Second sample notification item for the C9 witness. -/
def sampleErrorItem : QueueItem := ⟨"notification", "Error", "two", "#d13438", 4000⟩

/-- Third sample notification item for the C9 witness. -/
def sampleSuccessItem : QueueItem := ⟨"notification", "Success", "three", "#107c10", 4000⟩

/-- C9 witness: two producers, three items, one concrete interleaving in
which the second producer's item lands between the first producer's two
items. -/
theorem notification_queue_fifo_witness :
    (processQueueDrain
      ([sampleInfoItem, sampleErrorItem, sampleSuccessItem].foldl queuePut ⟨[]⟩)).1
      = [sampleInfoItem, sampleErrorItem, sampleSuccessItem]
    ∧ [sampleInfoItem, sampleErrorItem, sampleSuccessItem].length
      = ([[sampleInfoItem, sampleSuccessItem], [sampleErrorItem]].map List.length).sum
    ∧ [sampleInfoItem, sampleSuccessItem].Sublist
        [sampleInfoItem, sampleErrorItem, sampleSuccessItem] := by
  have hnil : ∀ l ∈ ([[], []] : List (List QueueItem)), l = [] := by
    intro l hl
    rcases List.mem_cons.mp hl with h1 | h1
    · exact h1
    · rcases List.mem_cons.mp h1 with h2 | h2
      · exact h2
      · cases h2
  have hm : Merges [[sampleInfoItem, sampleSuccessItem], [sampleErrorItem]]
      [sampleInfoItem, sampleErrorItem, sampleSuccessItem] :=
    Merges.step [] sampleInfoItem [sampleSuccessItem] [[sampleErrorItem]] _
      (Merges.step [[sampleSuccessItem]] sampleErrorItem [] [] _
        (Merges.step [] sampleSuccessItem [] [[]] _
          (Merges.nil [[], []] hnil)))
  have h := notification_queue_fifo _ _ hm
  exact ⟨h.1, h.2.2.1, h.2.2.2.2 _ (List.mem_cons_self _ _)⟩

/-- A two-element pattern is a subsequence of any list that carries the
first element and then, somewhere later, the second. -/
theorem pair_sublist {α : Type} (a b : α) (pre mid post : List α) :
    [a, b].Sublist (pre ++ a :: (mid ++ b :: post)) := by
  induction pre with
  | nil =>
    apply List.Sublist.cons₂
    induction mid with
    | nil => exact (List.nil_sublist post).cons₂ b
    | cons m ms ihm => exact ihm.cons m
  | cons p ps ihp => exact ihp.cons p

/-- C1: in every run of `TextCorrectionUseCase.execute` whose clipboard
read is non-blank, whose request passes `validate_request`, and whose
correction succeeds, the trace writes exactly the result's
`corrected_text` to the clipboard; `paste()` happens exactly once if and
only if auto-paste is enabled, and only after the write; the final
clipboard content is the corrected text; and a success notification is
queued whenever notifications are enabled.  (`AppSettings` only admits
the two supported prompt languages, hypothesis `hlang`.) -/
theorem execute_success_path (provider : AIProvider) (settings : AppSettings)
    (clip : String)
    (hlang : correctionRequestLanguageOk settings.prompt_language = true)
    (hclip : pyStrip clip ≠ "")
    (hvalid : (validateRequest (requestOf settings clip)).1 = true)
    (hsucc : (correctText provider (requestOf settings clip)).success = true) :
    WorkflowEvent.setTextEv
        (correctText provider (requestOf settings clip)).corrected_text
      ∈ executeUseCase provider settings clip
    ∧ (executeUseCase provider settings clip).countP isPasteEv
      = (if settings.auto_paste then 1 else 0)
    ∧ (settings.auto_paste = true →
        List.Sublist
          [WorkflowEvent.setTextEv
            (correctText provider (requestOf settings clip)).corrected_text,
           WorkflowEvent.pasteEv]
          (executeUseCase provider settings clip))
    ∧ finalClipboard clip (executeUseCase provider settings clip)
      = (correctText provider (requestOf settings clip)).corrected_text
    ∧ (settings.show_notifications = true →
        WorkflowEvent.successNotify
            (successNotificationMessage
              (correctText provider (requestOf settings clip))
              settings.auto_paste)
          ∈ executeUseCase provider settings clip) := by
  have htr : executeUseCase provider settings clip =
      WorkflowEvent.getTextEv clip ::
      ((if settings.show_notifications then
          [WorkflowEvent.infoNotify "Processing text correction..."]
        else []) ++
       (WorkflowEvent.setTextEv
          (correctText provider (requestOf settings clip)).corrected_text ::
        ((if settings.auto_paste then
            [WorkflowEvent.sleepEv, WorkflowEvent.pasteEv]
          else []) ++
         (if settings.show_notifications then
            [WorkflowEvent.successNotify
              (successNotificationMessage
                (correctText provider (requestOf settings clip))
                settings.auto_paste)]
          else [])))) := by
    unfold executeUseCase
    rw [if_neg hclip]
    simp only [hlang, hvalid, hsucc]
    simp
  rw [htr]
  cases hap : settings.auto_paste with
  | true =>
    cases hsn : settings.show_notifications with
    | true =>
      refine ⟨by simp, by simp [List.countP_cons, isPasteEv], ?_, by simp [finalClipboard], by simp⟩
      intro _
      exact pair_sublist
        (WorkflowEvent.setTextEv
          (correctText provider (requestOf settings clip)).corrected_text)
        WorkflowEvent.pasteEv
        [WorkflowEvent.getTextEv clip,
         WorkflowEvent.infoNotify "Processing text correction..."]
        [WorkflowEvent.sleepEv]
        [WorkflowEvent.successNotify
          (successNotificationMessage
            (correctText provider (requestOf settings clip)) true)]
    | false =>
      refine ⟨by simp, by simp [List.countP_cons, isPasteEv], ?_, by simp [finalClipboard], by simp⟩
      intro _
      exact pair_sublist
        (WorkflowEvent.setTextEv
          (correctText provider (requestOf settings clip)).corrected_text)
        WorkflowEvent.pasteEv
        [WorkflowEvent.getTextEv clip]
        [WorkflowEvent.sleepEv]
        ([] : List WorkflowEvent)
  | false =>
    cases hsn : settings.show_notifications with
    | true =>
      refine ⟨by simp, by simp [List.countP_cons, isPasteEv], ?_,
        by simp [finalClipboard], by simp⟩
      intro hc
      cases hc
    | false =>
      refine ⟨by simp, by simp [List.countP_cons, isPasteEv], ?_,
        by simp [finalClipboard], by simp⟩
      intro hc
      cases hc

/-- C1 witness: the spec's end-to-end scenario — Portuguese settings with
auto-paste and notifications on, clipboard "ola  como vc esta", a mock
generation returning "Olá, como você está?". -/
theorem execute_success_path_witness :
    WorkflowEvent.setTextEv
        (correctText (fun _ => .ok "Olá, como você está?")
          (requestOf {} "ola  como vc esta")).corrected_text
      ∈ executeUseCase (fun _ => .ok "Olá, como você está?") {} "ola  como vc esta"
    ∧ (executeUseCase (fun _ => .ok "Olá, como você está?") {}
        "ola  como vc esta").countP isPasteEv = 1
    ∧ List.Sublist
        [WorkflowEvent.setTextEv
          (correctText (fun _ => .ok "Olá, como você está?")
            (requestOf {} "ola  como vc esta")).corrected_text,
         WorkflowEvent.pasteEv]
        (executeUseCase (fun _ => .ok "Olá, como você está?") {}
          "ola  como vc esta")
    ∧ finalClipboard "ola  como vc esta"
        (executeUseCase (fun _ => .ok "Olá, como você está?") {}
          "ola  como vc esta")
      = (correctText (fun _ => .ok "Olá, como você está?")
          (requestOf {} "ola  como vc esta")).corrected_text
    ∧ WorkflowEvent.successNotify
        (successNotificationMessage
          (correctText (fun _ => .ok "Olá, como você está?")
            (requestOf {} "ola  como vc esta"))
          ({} : AppSettings).auto_paste)
      ∈ executeUseCase (fun _ => .ok "Olá, como você está?") {}
          "ola  como vc esta" := by
  have h := execute_success_path (fun _ => .ok "Olá, como você está?") {}
    "ola  como vc esta" (by decide) (by decide) (by decide) (by decide)
  exact ⟨h.1, h.2.1, h.2.2.1 rfl, h.2.2.2.1, h.2.2.2.2 rfl⟩

/-- C5 counterexample: normalization wraps multi-character tokens in
angle brackets, so re-normalizing an already-normalized chord with a
modifier wraps the modifier again: the spec's idempotence fails on
"alt+s". -/
theorem normalize_hotkey_not_idempotent_counterexample :
    normalizeHotkey "alt+s" = "<alt>+s"
    ∧ normalizeHotkey (normalizeHotkey "alt+s") = "<<alt>>+s"
    ∧ normalizeHotkey (normalizeHotkey "alt+s") ≠ normalizeHotkey "alt+s" := by
  decide

/-- Python's per-character lower-casing is idempotent. -/
theorem pyLowerChar_idem (c : Char) :
    pyLowerChar (pyLowerChar c) = pyLowerChar c := by
  by_cases h : 65 ≤ c.toNat ∧ c.toNat ≤ 90
  · have h1 : pyLowerChar c = Char.ofNat (c.toNat + 32) := by
      unfold pyLowerChar
      rw [if_pos h]
    have hv : Nat.isValidChar (c.toNat + 32) := Or.inl (by omega)
    have ht : (Char.ofNat (c.toNat + 32)).toNat = c.toNat + 32 := by
      unfold Char.ofNat
      rw [dif_pos hv]
      rfl
    rw [h1]
    unfold pyLowerChar
    rw [ht, if_neg (by omega)]
  · have h1 : pyLowerChar c = c := by
      unfold pyLowerChar
      rw [if_neg h]
    rw [h1, h1]

/-- A one-character list fixed by `stripChars` holds no whitespace. -/
theorem strip_singleton_not_ws {c : Char} (h : stripChars [c] = [c]) :
    pyWhitespaceChar c = false := by
  by_contra hp
  rw [Bool.not_eq_false] at hp
  have hnil : stripChars [c] = [] := by
    unfold stripChars
    rw [List.dropWhile_cons, if_pos hp, List.dropWhile_nil]
    exact List.rdropWhile_nil pyWhitespaceChar
  rw [hnil] at h
  cases h

/-- `str.split('+')` always yields at least one token. -/
theorem splitPlus_ne_nil (l : List Char) : splitPlus l ≠ [] := by
  cases l with
  | nil => simp [splitPlus]
  | cons c rest =>
    unfold splitPlus
    split
    · simp
    · split <;> simp

/-- Unfolding equation of `splitPlus` on a cons cell. -/
theorem splitPlus_cons (c : Char) (rest : List Char) :
    splitPlus (c :: rest)
      = if c = '+' then [] :: splitPlus rest
        else
          match splitPlus rest with
          | [] => [[c]]
          | t :: ts => (c :: t) :: ts := rfl

/-- Every character of a `split('+')` token comes from the split string
and is not the separator. -/
theorem mem_splitPlus (l : List Char) :
    ∀ t ∈ splitPlus l, ∀ c ∈ t, c ∈ l ∧ c ≠ '+' := by
  induction l with
  | nil =>
    intro t ht c hc
    have h1 : t = [] := by
      rcases List.mem_cons.mp ht with h1 | h1
      · exact h1
      · cases h1
    subst h1
    cases hc
  | cons a rest ih =>
    intro t ht c hc
    by_cases ha : a = '+'
    · rw [show splitPlus (a :: rest) = [] :: splitPlus rest from by
        rw [splitPlus_cons, if_pos ha]] at ht
      rcases List.mem_cons.mp ht with h1 | h1
      · subst h1
        cases hc
      · obtain ⟨h2, h3⟩ := ih t h1 c hc
        exact ⟨List.mem_cons_of_mem a h2, h3⟩
    · obtain ⟨t0, ts, hs⟩ : ∃ t0 ts, splitPlus rest = t0 :: ts := by
        cases hsp : splitPlus rest with
        | nil => exact absurd hsp (splitPlus_ne_nil rest)
        | cons t0 ts => exact ⟨t0, ts, rfl⟩
      rw [show splitPlus (a :: rest) = (a :: t0) :: ts from by
        rw [splitPlus_cons, if_neg ha, hs]] at ht
      rcases List.mem_cons.mp ht with h1 | h1
      · subst h1
        rcases List.mem_cons.mp hc with h2 | h2
        · subst h2
          exact ⟨List.mem_cons_self _ _, ha⟩
        · obtain ⟨h3, h4⟩ :=
            ih t0 (by rw [hs]; exact List.mem_cons_self _ _) c h2
          exact ⟨List.mem_cons_of_mem a h3, h4⟩
      · obtain ⟨h3, h4⟩ :=
          ih t (by rw [hs]; exact List.mem_cons_of_mem _ h1) c hc
        exact ⟨List.mem_cons_of_mem a h3, h4⟩

/-- Characters survive stripping only if they were already present. -/
theorem mem_stripChars {l : List Char} {c : Char} (h : c ∈ stripChars l) :
    c ∈ l := by
  have h1 : c ∈ l.dropWhile pyWhitespaceChar :=
    (List.rdropWhile_prefix pyWhitespaceChar
      (l.dropWhile pyWhitespaceChar)).sublist.subset h
  exact (List.dropWhile_sublist pyWhitespaceChar).subset h1

/-- Mapping a function that fixes every element of a list is the
identity on it. -/
theorem map_eq_self_of_all {α : Type} {f : α → α} {l : List α}
    (h : ∀ x ∈ l, f x = x) : l.map f = l := by
  induction l with
  | nil => rfl
  | cons x xs ih =>
    rw [List.map_cons, h x (List.mem_cons_self x xs),
      ih (fun y hy => h y (List.mem_cons_of_mem x hy))]

/-- Every character of `'+'.join(parts)` is the separator or comes from
one of the parts. -/
theorem mem_joinPlus {parts : List (List Char)} {c : Char}
    (h : c ∈ joinPlus parts) : c = '+' ∨ ∃ q ∈ parts, c ∈ q := by
  induction parts with
  | nil => cases h
  | cons q rest ih =>
    cases rest with
    | nil => exact Or.inr ⟨q, List.mem_cons_self _ _, h⟩
    | cons q2 rest2 =>
      have h0 : c ∈ q ++ '+' :: joinPlus (q2 :: rest2) := h
      rcases List.mem_append.mp h0 with h1 | h1
      · exact Or.inr ⟨q, List.mem_cons_self _ _, h1⟩
      · rcases List.mem_cons.mp h1 with h2 | h2
        · exact Or.inl h2
        · rcases ih h2 with h3 | ⟨q3, hq3, hc3⟩
          · exact Or.inl h3
          · exact Or.inr ⟨q3, List.mem_cons_of_mem _ hq3, hc3⟩

/-- Splitting a separator-free token is the identity. -/
theorem splitPlus_no_plus {q : List Char} (h : ¬ '+' ∈ q) :
    splitPlus q = [q] := by
  induction q with
  | nil => rfl
  | cons c q' ih =>
    have hc : ¬(c = '+') := fun he => h (he ▸ List.mem_cons_self c q')
    have hq' : ¬ '+' ∈ q' := fun hm => h (List.mem_cons_of_mem c hm)
    simp [splitPlus, hc, ih hq']

/-- Splitting after a separator-free block peels the block off. -/
theorem splitPlus_append_plus {q : List Char} (h : ¬ '+' ∈ q)
    (z : List Char) : splitPlus (q ++ '+' :: z) = q :: splitPlus z := by
  induction q with
  | nil => simp [splitPlus]
  | cons c q' ih =>
    have hc : ¬(c = '+') := fun he => h (he ▸ List.mem_cons_self c q')
    have hq' : ¬ '+' ∈ q' := fun hm => h (List.mem_cons_of_mem c hm)
    simp [splitPlus, hc, ih hq']

/-- `split('+')` inverts `'+'.join` on separator-free parts. -/
theorem splitPlus_joinPlus {parts : List (List Char)} (hne : parts ≠ [])
    (h : ∀ q ∈ parts, ¬ '+' ∈ q) : splitPlus (joinPlus parts) = parts := by
  induction parts with
  | nil => exact absurd rfl hne
  | cons q rest ih =>
    cases rest with
    | nil => exact splitPlus_no_plus (h q (List.mem_cons_self _ _))
    | cons q2 rest2 =>
      have h1 : joinPlus (q :: q2 :: rest2)
          = q ++ '+' :: joinPlus (q2 :: rest2) := rfl
      rw [h1, splitPlus_append_plus (h q (List.mem_cons_self _ _)),
        ih (List.cons_ne_nil q2 rest2)
          (fun r hr => h r (List.mem_cons_of_mem _ hr))]

/-- Core of the amended C5: on a chord whose tokens all strip to at most
one character, `_normalize_hotkey` (character-list form) is idempotent. -/
theorem normalizeHotkeyChars_idem (l : List Char)
    (h : ∀ t ∈ splitPlus (stripChars (l.map pyLowerChar)),
        (stripChars t).length ≤ 1) :
    normalizeHotkeyChars (normalizeHotkeyChars l) = normalizeHotkeyChars l := by
  unfold normalizeHotkeyChars
  set parts :=
    (splitPlus (stripChars (l.map pyLowerChar))).map normalizeTokenChars
    with hparts
  have hq_props : ∀ q ∈ parts,
      (∀ c ∈ q, c ∈ l.map pyLowerChar ∧ c ≠ '+')
      ∧ stripChars q = q ∧ q.length ≤ 1 := by
    intro q hq
    rw [hparts] at hq
    obtain ⟨t, ht, hqe⟩ := List.mem_map.mp hq
    have hqt : q = stripChars t := by
      rw [← hqe]
      simp only [normalizeTokenChars]
      rw [if_neg (by have := h t ht; omega)]
    subst hqt
    refine ⟨?_, stripChars_idem t, h t ht⟩
    intro c hc
    have hct : c ∈ t := mem_stripChars hc
    have h2 := mem_splitPlus (stripChars (l.map pyLowerChar)) t ht c hct
    exact ⟨mem_stripChars h2.1, h2.2⟩
  have hout_chars : ∀ c ∈ joinPlus parts,
      pyWhitespaceChar c = false ∧ pyLowerChar c = c := by
    intro c hc
    rcases mem_joinPlus hc with hplus | ⟨q, hq, hcq⟩
    · subst hplus
      exact ⟨by decide, by decide⟩
    · obtain ⟨hprops, hstrip, hlen⟩ := hq_props q hq
      have hsingle : q = [c] := by
        cases q with
        | nil => cases hcq
        | cons x xs =>
          cases xs with
          | nil =>
            rcases List.mem_cons.mp hcq with h1 | h1
            · rw [← h1]
            · cases h1
          | cons y ys => simp at hlen
      have hnonws : pyWhitespaceChar c = false := by
        apply strip_singleton_not_ws
        rw [← hsingle]
        exact hstrip
      have hcl : c ∈ l.map pyLowerChar := (hprops c hcq).1
      obtain ⟨c0, _, hc0⟩ := List.mem_map.mp hcl
      refine ⟨hnonws, ?_⟩
      rw [← hc0]
      exact pyLowerChar_idem c0
  have hA : (joinPlus parts).map pyLowerChar = joinPlus parts :=
    map_eq_self_of_all (fun c hc => (hout_chars c hc).2)
  have hB : stripChars (joinPlus parts) = joinPlus parts :=
    stripChars_eq_self_of_all (fun c hc => (hout_chars c hc).1)
  have hC : splitPlus (joinPlus parts) = parts := by
    apply splitPlus_joinPlus
    · rw [hparts]
      intro hmn
      exact splitPlus_ne_nil _ (List.map_eq_nil_iff.mp hmn)
    · intro q hq hp
      exact ((hq_props q hq).1 '+' hp).2 rfl
  have hD : parts.map normalizeTokenChars = parts := by
    apply map_eq_self_of_all
    intro q hq
    obtain ⟨_, hstrip, hlen⟩ := hq_props q hq
    simp only [normalizeTokenChars]
    rw [hstrip, if_neg (by omega)]
  rw [hA, hB, hC, hD]

/-- C5 (amended): `_normalize_hotkey` is idempotent exactly on chords
without modifier tokens — when every token of
`hotkey.lower().strip().split('+')` strips to at most one character;
for a chord with a modifier token the function is not idempotent, since
re-normalizing wraps the modifier in another angle-bracket pair
(normalize("alt+s") = "<alt>+s" but normalize("<alt>+s") =
"<<alt>>+s"). -/
theorem normalize_hotkey_idempotent_on_plain_keys (hotkey : String)
    (h : ∀ t ∈ splitPlus (stripChars (hotkey.data.map pyLowerChar)),
        (stripChars t).length ≤ 1) :
    normalizeHotkey (normalizeHotkey hotkey) = normalizeHotkey hotkey :=
  congrArg String.mk (normalizeHotkeyChars_idem hotkey.data h)

/-- C5 witness: the amended idempotence at the single-character-token
chord " A+s " (mixed case and padding, no modifier). -/
theorem normalize_hotkey_idempotent_on_plain_keys_witness :
    normalizeHotkey (normalizeHotkey " A+s ") = normalizeHotkey " A+s " :=
  normalize_hotkey_idempotent_on_plain_keys " A+s " (by decide)

end TextCorrector
